import Mathlib

/-!
Shallow embedding of the Tokk-config-api configuration service
(`src/routes/config.js`) and proofs about its behavior.

Modelling conventions:
* A JavaScript string environment variable that may be unset is `Option String`.
* JavaScript truthiness of such a value (`undefined` and `""` are falsy) is
  `jsTruthy`; the `a || b` idiom is `jsOr` / `jsOrStr`.
* A JS object used as a string-keyed map is an association list with
  first-match lookup.
* Object identity (needed for the cache-aliasing claims) is modelled with an
  allocation counter: every freshly created configuration document receives a
  fresh numeric id, and a heap `List (Nat × ConfigDoc)` maps ids to document
  values.  `configCache` maps cache keys to ids, so two cache keys alias the
  same JS object exactly when they map to the same id.
* Timestamps are `Nat` milliseconds.
-/

/-- JS truthiness of a possibly-undefined string: `undefined` and `""` are falsy. -/
def jsTruthy : Option String → Bool
  | none => false
  | some s => !(s == "")

/-- The JS `a || b` idiom on possibly-undefined strings. -/
def jsOr (a b : Option String) : Option String :=
  if jsTruthy a then a else b

/-- The JS `a || d` idiom with a string-literal default. -/
def jsOrStr (a : Option String) (d : String) : String :=
  match a with
  | some s => if s = "" then d else s
  | none => d

/-- First-match lookup in a string-keyed boolean map (a JS object of flags). -/
def getFlag : List (String × Bool) → String → Option Bool
  | [], _ => none
  | p :: rest, k => if p.1 = k then some p.2 else getFlag rest k

/-- Model of `Object.assign(base, upd)`: every key of `base` keeps its place but is
overwritten when `upd` has the key; keys of `upd` absent from `base` are added. -/
def objectAssign (base upd : List (String × Bool)) : List (String × Bool) :=
  base.map (fun p => match getFlag upd p.1 with
    | some v => (p.1, v)
    | none => p) ++
  upd.filter (fun p => (getFlag base p.1).isNone)

/-- The configuration document served by the API (`getLegacyConfig` shape). -/
structure ConfigDoc where
  userPoolId : Option String
  appClientId : Option String
  websocketEndpoint : Option String
  botId : Option String
  foundationModel : String
  features : List (String × Bool)
  version : String
deriving DecidableEq, Repr

/-- Function `getLegacyConfig()` from `src/routes/config.js` (lines 13-35): the
field-by-field fallback document assembled from individual variables. -/
def getLegacyConfig (env : String → Option String) : ConfigDoc :=
  { userPoolId := env "USER_POOL_ID"
    appClientId := env "APP_CLIENT_ID"
    websocketEndpoint := env "WEBSOCKET_ENDPOINT"
    botId := env "BOT_ID"
    foundationModel := jsOrStr (env "FOUNDATION_MODEL") "claude-v3.7-sonnet"
    features := [("darkMode", (env "FEATURE_DARK_MODE" == some "true") || false),
                 ("analytics", (env "FEATURE_ANALYTICS" == some "true") || true),
                 ("newCheckout", (env "FEATURE_NEW_CHECKOUT" == some "true") || false)]
    version := jsOrStr (env "CONFIG_VERSION") "1.0.0" }

/-- State of the module at/after startup: an allocation counter for object
identity, the heap of allocated documents, and the `configCache` map from
cache key to object id. -/
structure BuildSt where
  nextId : Nat
  heap : List (Nat × ConfigDoc)
  cache : List (String × Nat)
deriving DecidableEq, Repr

/-- First-match lookup of a document id in the heap. -/
def heapGet : List (Nat × ConfigDoc) → Nat → Option ConfigDoc
  | [], _ => none
  | p :: rest, i => if p.1 = i then some p.2 else heapGet rest i

/-- Overwrite the document stored at id `i` (in-place mutation of a JS object). -/
def heapSet (h : List (Nat × ConfigDoc)) (i : Nat) (d : ConfigDoc) :
    List (Nat × ConfigDoc) :=
  h.map (fun p => if p.1 = i then (i, d) else p)

/-- Model of `configCache.get`: first-match lookup of the object id stored for a key. -/
def cacheGet : List (String × Nat) → String → Option Nat
  | [], _ => none
  | p :: rest, k => if p.1 = k then some p.2 else cacheGet rest k

/-- Allocate a fresh document object; returns its id and the grown state. -/
def alloc (d : ConfigDoc) (st : BuildSt) : Nat × BuildSt :=
  (st.nextId,
   { nextId := st.nextId + 1, heap := (st.nextId, d) :: st.heap, cache := st.cache })

/-- JS `environment.toUpperCase()` on the characters of the name. -/
def upperAscii (s : String) : String :=
  String.mk (s.data.map Char.toUpper)

/-- The environment-variable name composed in `getAppConfig` (lines 39-41):
base key plus optional `_version` and `_ENVIRONMENT` suffixes. -/
def envName (version environment : String) : String :=
  "APP_CONFIG" ++ (if version = "" then "" else "_" ++ version) ++
    (if environment = "" then "" else "_" ++ upperAscii environment)

/-- The fallback chain of `getAppConfig` (lines 53-64), run when the structured
input is absent, empty or unparseable.  Cache hits return the existing object
id (aliasing); `getLegacyConfig` builds a fresh object. -/
def configFallback (env : String → Option String) (version environment : String)
    (st : BuildSt) : Nat × BuildSt :=
  if environment ≠ "" ∧ version = "" then
    match cacheGet st.cache "" with
    | some i => (i, st)
    | none => alloc (getLegacyConfig env) st
  else if environment ≠ "" ∧ version ≠ "" then
    match cacheGet st.cache version with
    | some i => (i, st)
    | none =>
      match cacheGet st.cache "" with
      | some i => (i, st)
      | none => alloc (getLegacyConfig env) st
  else if version ≠ "" ∧ environment = "" then
    match cacheGet st.cache "" with
    | some i => (i, st)
    | none => alloc (getLegacyConfig env) st
  else alloc (getLegacyConfig env) st

/-- Function `getAppConfig(version, environment)` as executed at startup (lines 38-65).
`parse` abstracts `JSON.parse` on the variable's string value: `some d` when
it parses to a document, `none` when it throws.  A successful parse allocates
a fresh object; otherwise the fallback chain runs. -/
def getAppConfigInit (env : String → Option String) (parse : String → Option ConfigDoc)
    (version environment : String) (st : BuildSt) : Nat × BuildSt :=
  match env (envName version environment) with
  | some s =>
    if s ≠ "" then
      match parse s with
      | some d => alloc d st
      | none => configFallback env version environment st
    else configFallback env version environment st
  | none => configFallback env version environment st

/-- One iteration of the startup loop (lines 69-75): cache the plain document
under `version` and the test document under `version ++ "_test"`. -/
def processVersion (env : String → Option String) (parse : String → Option ConfigDoc)
    (st : BuildSt) (v : String) : BuildSt :=
  let p := getAppConfigInit env parse v "" st
  let st2 : BuildSt := { p.2 with cache := (v, p.1) :: p.2.cache }
  let t := getAppConfigInit env parse v "test" st2
  { t.2 with cache := (v ++ "_test", t.1) :: t.2.cache }

/-- The pre-declared version identifiers cached at startup (line 69). -/
def CACHE_VERSIONS : List String := ["", "2", "3", "4", "5"]

/-- Run a list of startup iterations from a given state. -/
def stepsAfter (env : String → Option String) (parse : String → Option ConfigDoc)
    (st : BuildSt) (vs : List String) : BuildSt :=
  vs.foldl (processVersion env parse) st

/-- The whole startup cache population (lines 68-75). -/
def buildCache (env : String → Option String) (parse : String → Option ConfigDoc) :
    BuildSt :=
  stepsAfter env parse ⟨0, [], []⟩ CACHE_VERSIONS

/-- Whether the structured input for `(version, environment)` is present,
non-empty and parseable — exactly the condition under which `getAppConfig`
returns a freshly parsed document instead of running the fallback chain. -/
def sourcePresent (env : String → Option String) (parse : String → Option ConfigDoc)
    (version environment : String) : Bool :=
  match env (envName version environment) with
  | some s => (!(s == "")) && (parse s).isSome
  | none => false

/-- The document object a cache key currently denotes. -/
def docAt (B : BuildSt) (key : String) : Option ConfigDoc :=
  match cacheGet B.cache key with
  | some i => heapGet B.heap i
  | none => none

/-- The features map observable through a cache key. -/
def featuresVia (B : BuildSt) (key : String) : Option (List (String × Bool)) :=
  (docAt B key).map (fun d => d.features)

/-- Statement `Object.assign(APP_CONFIG.features, features)` (line 339): in-place merge
into the unversioned default document, visible through every alias. -/
def adminMerge (B : BuildSt) (upd : List (String × Bool)) : BuildSt :=
  match cacheGet B.cache "" with
  | none => B
  | some i =>
    match heapGet B.heap i with
    | none => B
    | some d =>
      { B with heap := heapSet B.heap i { d with features := objectAssign d.features upd } }

/-! ## Rate limiter (lines 82-115) -/

/-- One `rateLimitStore` entry: `{ count, resetTime }`. -/
structure RLEntry where
  count : Nat
  resetTime : Nat
deriving DecidableEq, Repr

/-- Outcome of the rate-limit middleware for one request. -/
inductive RLOutcome where
  | allow
  | reject (retryAfter : Nat)
deriving DecidableEq, Repr

/-- Constant `RATE_LIMIT_WINDOW = 60 * 1000` milliseconds. -/
def RATE_LIMIT_WINDOW : Nat := 60 * 1000

/-- Constant `RATE_LIMIT_MAX_REQUESTS = 100`. -/
def RATE_LIMIT_MAX_REQUESTS : Nat := 100

/-- The `rateLimit` middleware for one client identity: given that client's
current store entry (`none` when absent) and `now = Date.now()`, produce the
outcome and the entry left in the store.  `Math.ceil(x / 1000)` on a
non-negative integer number of milliseconds is `(x + 999) / 1000`. -/
def rateLimitStep (entry : Option RLEntry) (now : Nat) : RLOutcome × RLEntry :=
  match entry with
  | none => (.allow, ⟨1, now + RATE_LIMIT_WINDOW⟩)
  | some e =>
    if e.resetTime < now then
      (.allow, ⟨1, now + RATE_LIMIT_WINDOW⟩)
    else if RATE_LIMIT_MAX_REQUESTS ≤ e.count then
      (.reject ((e.resetTime - now + 999) / 1000), e)
    else
      (.allow, ⟨e.count + 1, e.resetTime⟩)

/-- Run the rate limiter over a sequence of request times for one client. -/
def runRL : Option RLEntry → List Nat → List RLOutcome × Option RLEntry
  | st, [] => ([], st)
  | st, t :: ts =>
    let r := rateLimitStep st t
    let rest := runRL (some r.2) ts
    (r.1 :: rest.1, rest.2)

/-! ## API-key validation (lines 118-141) -/

/-- Model of `'authorization'?.replace('Bearer ', '')`: JS `String.replace` with a
string pattern replaces only the first occurrence. -/
def replFirstAux (pat : List Char) : List Char → List Char
  | [] => []
  | c :: rest =>
    if pat.isPrefixOf (c :: rest) then (c :: rest).drop pat.length
    else c :: replFirstAux pat rest

/-- Strip the first occurrence of `"Bearer "` from an authorization header. -/
def stripBearer (s : String) : String :=
  String.mk (replFirstAux "Bearer ".toList s.toList)

/-- Candidate API key extraction (lines 119-121): dedicated header, then
bearer-stripped authorization header, then query parameter, under JS `||`. -/
def extractApiKey (xApiKey auth query : Option String) : Option String :=
  jsOr (jsOr xApiKey (auth.map stripBearer)) query

/-- Result of the `validateApiKey` middleware. -/
inductive ApiKeyCheck where
  | keyRequired
  | invalidKey
  | valid (key : String)
deriving DecidableEq, Repr

/-- The message of the 401 body when no key is present (line 126). -/
def keyRequiredMsg : String :=
  "API key is required. Provide it in X-API-Key header, Authorization header, or apiKey query parameter."

/-- The message of the 401 body when the key is not in the valid set (line 134). -/
def invalidKeyMsg : String := "Invalid API key provided."

/-- Middleware `validateApiKey` (lines 118-141).  `VALID_API_KEYS` is the list of the
three per-platform environment values, each possibly unset. -/
def validateApiKeyF (validKeys : List (Option String)) (x a q : Option String) :
    ApiKeyCheck :=
  match extractApiKey x a q with
  | none => .keyRequired
  | some s =>
    if s = "" then .keyRequired
    else if validKeys.contains (some s) then .valid s
    else .invalidKey

/-! ## Responses and route handlers -/

/-- The JSON responses the router can produce (per-request metadata such as
timestamp and request id is not modelled; the `error` labels and messages of
the bodies are). -/
inductive Response where
  | okDoc (d : ConfigDoc) (environment : String)
  | okVersionInfo (version : String)
  | okFeatures (features : List (String × Bool))
  | unauthorized (message : String)
  | forbidden (message : String)
  | badRequest (message : String)
  | tooMany (retryAfter : Nat)
  | serverError
  | notFound
deriving DecidableEq, Repr

/-- HTTP status code of a response. -/
def statusOf : Response → Nat
  | .okDoc _ _ => 200
  | .okVersionInfo _ => 200
  | .okFeatures _ => 200
  | .unauthorized _ => 401
  | .forbidden _ => 403
  | .badRequest _ => 400
  | .tooMany _ => 429
  | .serverError => 500
  | .notFound => 404

/-- The machine-readable `error` label of an error body. -/
def errLabel : Response → String
  | .unauthorized _ => "Unauthorized"
  | .forbidden _ => "Forbidden"
  | .badRequest _ => "Bad Request"
  | .tooMany _ => "Too Many Requests"
  | .serverError => "Internal Server Error"
  | .notFound => "Not Found"
  | _ => ""

/-- Whether a response is the lightweight `{version, timestamp, checksum}` body. -/
def isVersionInfo : Response → Bool
  | .okVersionInfo _ => true
  | _ => false

/-- Whether a response is a 200 with a configuration document body. -/
def isOkDoc : Response → Bool
  | .okDoc _ _ => true
  | _ => false

/-- Handler of `GET /config/:environment` (lines 242-278): serves
`APP_CONFIG_TEST` when the parameter is exactly `test`, else `APP_CONFIG`.
A missing document makes the response construction throw
(`Buffer.from(JSON.stringify(undefined))`), caught as a 500. -/
def configEnvHandler (B : BuildSt) (environment : String) : Response :=
  match docAt B (if environment = "test" then "_test" else "") with
  | some d => .okDoc d environment
  | none => .serverError

/-- Handler of `GET /config` (lines 280-314). -/
def configHandler (B : BuildSt) : Response :=
  match docAt B "" with
  | some d => .okDoc d ""
  | none => .serverError

/-- Handler of `GET /v:version/config` (lines 202-239): reads
`configCache.get(version)` directly; an absent entry makes the ETag
construction throw (`Buffer.from(JSON.stringify(undefined))`), caught by the
handler's `try` block as a 500. -/
def vConfigHandler (B : BuildSt) (version : String) : Response :=
  match docAt B version with
  | some d => .okDoc d version
  | none => .serverError

/-- Handler of `GET /v:version/config/:environment` (lines 162-200): cache key
is `version_test` when the environment parameter is `test`, else `version`. -/
def vConfigEnvHandler (B : BuildSt) (version environment : String) : Response :=
  match docAt B (if environment = "test" then version ++ "_test" else version) with
  | some d => .okDoc d environment
  | none => .serverError

/-- Handler of `GET /config/version` (lines 317-323). -/
def configVersionHandler (B : BuildSt) : Response :=
  match docAt B "" with
  | some d => .okVersionInfo d.version
  | none => .serverError

/-- Handler of `POST /config/features` (lines 326-348), including its
`validateApiKey` middleware: the admin check is JS strict (in)equality between
the possibly-absent `x-admin-key` header and the possibly-unset
`ADMIN_API_KEY` value; on success the body's flag map is `Object.assign`ed
into the default document's features and the merged map is returned. -/
def postFeaturesHandler (validKeys : List (Option String)) (x a q : Option String)
    (adminHeader adminSecret : Option String)
    (body : Option (List (String × Bool))) (B : BuildSt) : Response × BuildSt :=
  match validateApiKeyF validKeys x a q with
  | .keyRequired => (.unauthorized keyRequiredMsg, B)
  | .invalidKey => (.unauthorized invalidKeyMsg, B)
  | .valid _ =>
    if adminHeader ≠ adminSecret then (.forbidden "Admin access required", B)
    else
      match body with
      | none => (.badRequest "Features object is required", B)
      | some fs =>
        match docAt B "" with
        | some d => (.okFeatures (objectAssign d.features fs), adminMerge B fs)
        | none => (.serverError, B)

/-! ## Router dispatch (Express matches registered routes in order; the first
pattern that matches the path wins) -/

/-- HTTP method. -/
inductive Meth where
  | get
  | post
deriving DecidableEq, Repr

/-- A path-pattern segment: a literal, or a named parameter that may carry a
literal prefix (as in `v:version`); a parameter match must be non-empty. -/
inductive Seg where
  | lit (s : String)
  | par (pre : String) (name : String)
deriving DecidableEq, Repr

/-- Match one pattern segment against one path segment. -/
def matchSeg : Seg → String → Option (List (String × String))
  | .lit s, t => if t = s then some [] else none
  | .par p n, t =>
    if p.data.isPrefixOf t.data = true ∧ p.length < t.length then
      some [(n, String.mk (t.data.drop p.length))]
    else none

/-- Match a whole pattern against a whole path, collecting parameter bindings. -/
def matchSegs : List Seg → List String → Option (List (String × String))
  | [], [] => some []
  | p :: ps, t :: ts =>
    match matchSeg p t with
    | some bs =>
      match matchSegs ps ts with
      | some bs2 => some (bs ++ bs2)
      | none => none
    | none => none
  | _, _ => none

/-- Identifiers of the six routes, in their registration roles. -/
inductive RouteId where
  | rVConfigEnv
  | rVConfig
  | rConfigEnv
  | rConfig
  | rConfigVersion
  | rFeatures
deriving DecidableEq, Repr

/-- The routes exactly in registration order (lines 162, 202, 242, 280, 317, 326). -/
def routesInOrder : List (Meth × List Seg × RouteId) :=
  [(.get, [.par "v" "version", .lit "config", .par "" "environment"], .rVConfigEnv),
   (.get, [.par "v" "version", .lit "config"], .rVConfig),
   (.get, [.lit "config", .par "" "environment"], .rConfigEnv),
   (.get, [.lit "config"], .rConfig),
   (.get, [.lit "config", .lit "version"], .rConfigVersion),
   (.post, [.lit "config", .lit "features"], .rFeatures)]

/-- First-match dispatch over a route table. -/
def dispatchIn : List (Meth × List Seg × RouteId) → Meth → List String →
    Option (RouteId × List (String × String))
  | [], _, _ => none
  | r :: rest, m, path =>
    if r.1 = m then
      match matchSegs r.2.1 path with
      | some bs => some (r.2.2, bs)
      | none => dispatchIn rest m path
    else dispatchIn rest m path

/-- Express dispatch of a method and path over the registered routes. -/
def dispatch (m : Meth) (path : List String) :
    Option (RouteId × List (String × String)) :=
  dispatchIn routesInOrder m path

/-- Look up a bound path parameter. -/
def paramGet : List (String × String) → String → String
  | [], _ => ""
  | p :: rest, k => if p.1 = k then p.2 else paramGet rest k

/-- Run the matched GET handler (after the request gate has passed). -/
def handleGet (B : BuildSt) (rid : RouteId) (prms : List (String × String)) :
    Response :=
  match rid with
  | .rVConfigEnv => vConfigEnvHandler B (paramGet prms "version") (paramGet prms "environment")
  | .rVConfig => vConfigHandler B (paramGet prms "version")
  | .rConfigEnv => configEnvHandler B (paramGet prms "environment")
  | .rConfig => configHandler B
  | .rConfigVersion => configVersionHandler B
  | .rFeatures => .notFound

/-- Serve an authenticated, non-rate-limited GET request for a path. -/
def serveGet (B : BuildSt) (path : List String) : Response :=
  match dispatch .get path with
  | some r => handleGet B r.1 r.2
  | none => .notFound

/-- The `Option Response` produced by `validateApiKey` before the handler runs
(`none` means the middleware called `next()`). -/
def apiKeyResponse : ApiKeyCheck → Option Response
  | .keyRequired => some (.unauthorized keyRequiredMsg)
  | .invalidKey => some (.unauthorized invalidKeyMsg)
  | .valid _ => none

/-- A process environment with no configuration variables set at all. -/
def envAbsent : String → Option String := fun _ => none

/-- A parser under which no string parses (matches `envAbsent`: nothing to parse). -/
def parseAbsent : String → Option ConfigDoc := fun _ => none

/-- A concrete structured configuration document, used as the parse result of
the string literal `"sample"` in concrete deployments below. -/
def sampleDoc : ConfigDoc :=
  { userPoolId := some "pool", appClientId := some "client",
    websocketEndpoint := some "wss", botId := some "bot",
    foundationModel := "model-a",
    features := [("darkMode", true)], version := "2.0.0" }

/-- A parser that accepts exactly the string `"sample"`. -/
def parseSample : String → Option ConfigDoc :=
  fun s => if s = "sample" then some sampleDoc else none

/-- Deployment where only the unversioned `APP_CONFIG` blob is set (and parses). -/
def envPlainOnly : String → Option String :=
  fun k => if k = "APP_CONFIG" then some "sample" else none

/-- Deployment where only the version-2 `APP_CONFIG_2` blob is set (and parses). -/
def envV2Only : String → Option String :=
  fun k => if k = "APP_CONFIG_2" then some "sample" else none

/-- Well-formedness of a startup state: every heap id is below the allocation
counter, and every cached id is below the counter and resolvable in the heap. -/
def StInv (st : BuildSt) : Prop :=
  (∀ p ∈ st.heap, p.1 < st.nextId) ∧
  (∀ k i, cacheGet st.cache k = some i →
    i < st.nextId ∧ (heapGet st.heap i).isSome = true)

/-- Postcondition of one `getAppConfig` startup call: the cache is untouched,
the counter does not decrease, the returned id is allocated and resolvable,
and well-formedness is preserved. -/
def GaciOk (st : BuildSt) (r : Nat × BuildSt) : Prop :=
  r.2.cache = st.cache ∧ st.nextId ≤ r.2.nextId ∧ r.1 < r.2.nextId ∧ StInv r.2 ∧
  (heapGet r.2.heap r.1).isSome = true

/-! ## Rate-limiter lemmas and claims C3, C4 -/

/-- Every request within the current window, while the running count stays at
or below the maximum, is allowed and simply increments the count. -/
theorem runRL_within (e : RLEntry) (ts : List Nat)
    (h : ∀ t ∈ ts, t ≤ e.resetTime)
    (hc : e.count + ts.length ≤ RATE_LIMIT_MAX_REQUESTS) :
    runRL (some e) ts =
      (List.replicate ts.length RLOutcome.allow, some ⟨e.count + ts.length, e.resetTime⟩) := by
  induction ts generalizing e with
  | nil => rfl
  | cons t ts ih =>
    have ht : t ≤ e.resetTime := h t (List.mem_cons_self t ts)
    have hlt : ¬ e.resetTime < t := not_lt.mpr ht
    have hmax : ¬ RATE_LIMIT_MAX_REQUESTS ≤ e.count := by
      simp only [List.length_cons] at hc
      simp only [RATE_LIMIT_MAX_REQUESTS] at hc ⊢
      omega
    have hstep : rateLimitStep (some e) t = (.allow, ⟨e.count + 1, e.resetTime⟩) := by
      simp [rateLimitStep, hlt, hmax]
    have hrec := ih ⟨e.count + 1, e.resetTime⟩
      (by intro x hx; exact h x (List.mem_cons_of_mem t hx))
      (by simp only [List.length_cons] at hc; simpa using by omega)
    simp only [runRL, hstep, hrec, List.length_cons, List.replicate_succ]
    have harith : e.count + 1 + ts.length = e.count + (ts.length + 1) := by omega
    rw [harith]

/-- C3: for every client identity, under a fixed clock window, exactly
`RATE_LIMIT_MAX_REQUESTS = 100` requests within one window are allowed; the
101st request in the same window is rejected with
`retryAfter = ceil((windowResetAt - now)/1000)`, and that value is at most the
window duration in seconds (60). -/
theorem c3_rate_limit_window (t0 : Nat) (ts : List Nat) (t1 : Nat)
    (hlen : ts.length = 99)
    (hts : ∀ t ∈ ts, t ≤ t0 + RATE_LIMIT_WINDOW)
    (h0 : t0 ≤ t1) (h1 : t1 ≤ t0 + RATE_LIMIT_WINDOW) :
    (runRL none (t0 :: ts)).1 = List.replicate 100 RLOutcome.allow ∧
    rateLimitStep (runRL none (t0 :: ts)).2 t1 =
      (RLOutcome.reject ((t0 + RATE_LIMIT_WINDOW - t1 + 999) / 1000),
       ⟨100, t0 + RATE_LIMIT_WINDOW⟩) ∧
    (t0 + RATE_LIMIT_WINDOW - t1 + 999) / 1000 ≤ 60 := by
  have hstep0 : rateLimitStep none t0 = (.allow, ⟨1, t0 + RATE_LIMIT_WINDOW⟩) := rfl
  have hrest := runRL_within ⟨1, t0 + RATE_LIMIT_WINDOW⟩ ts hts
    (by simp only [RATE_LIMIT_MAX_REQUESTS]; omega)
  have hrun : runRL none (t0 :: ts) =
      (RLOutcome.allow :: List.replicate ts.length RLOutcome.allow,
       some ⟨1 + ts.length, t0 + RATE_LIMIT_WINDOW⟩) := by
    simp only [runRL, hstep0, hrest]
  refine ⟨?_, ?_, ?_⟩
  · rw [hrun, hlen]
    rfl
  · rw [hrun, hlen]
    have hlt : ¬ t0 + RATE_LIMIT_WINDOW < t1 := not_lt.mpr h1
    simp [rateLimitStep, hlt, RATE_LIMIT_MAX_REQUESTS]
  · have hb : t0 + RATE_LIMIT_WINDOW - t1 + 999 ≤ 60999 := by
      simp only [RATE_LIMIT_WINDOW] at h0 h1 ⊢
      omega
    calc (t0 + RATE_LIMIT_WINDOW - t1 + 999) / 1000 ≤ 60999 / 1000 :=
          Nat.div_le_div_right hb
      _ = 60 := by norm_num

/-- C3 witness: 100 simultaneous requests at time 0 are all allowed, and the
101st is rejected with `retryAfter = 60 ≤ 60`. -/
theorem c3_rate_limit_window_witness :
    (runRL none (0 :: List.replicate 99 0)).1 = List.replicate 100 RLOutcome.allow ∧
    rateLimitStep (runRL none (0 :: List.replicate 99 0)).2 0 =
      (RLOutcome.reject ((0 + RATE_LIMIT_WINDOW - 0 + 999) / 1000),
       ⟨100, 0 + RATE_LIMIT_WINDOW⟩) ∧
    (0 + RATE_LIMIT_WINDOW - 0 + 999) / 1000 ≤ 60 :=
  c3_rate_limit_window 0 (List.replicate 99 0) 0 (by simp)
    (by intro t ht; simp [List.eq_of_mem_replicate ht])
    (Nat.zero_le 0) (by simp)

/-- C4: for every existing rate-limit entry, a request arriving strictly after
`windowResetAt` is allowed, and the entry is replaced by `count = 1` and
`windowResetAt = now + window`, regardless of the prior count. -/
theorem c4_window_reset (e : RLEntry) (now : Nat) (h : e.resetTime < now) :
    rateLimitStep (some e) now = (RLOutcome.allow, ⟨1, now + RATE_LIMIT_WINDOW⟩) := by
  simp [rateLimitStep, h]

/-- C4 witness: an entry already at the maximum count (100) whose window ended
at time 5 is reset by a request at time 6. -/
theorem c4_window_reset_witness :
    (⟨100, 5⟩ : RLEntry).resetTime < 6 ∧
    rateLimitStep (some ⟨100, 5⟩) 6 = (RLOutcome.allow, ⟨1, 6 + RATE_LIMIT_WINDOW⟩) :=
  ⟨by decide, c4_window_reset ⟨100, 5⟩ 6 (by decide)⟩

/-! ## Shallow-merge lemmas and claim C5 -/

/-- Lookup distributes over list append with first-match priority. -/
theorem getFlag_append (l1 l2 : List (String × Bool)) (k : String) :
    getFlag (l1 ++ l2) k = Option.or (getFlag l1 k) (getFlag l2 k) := by
  induction l1 with
  | nil => simp [getFlag, Option.or]
  | cons p rest ih =>
    by_cases hk : p.1 = k
    · simp [getFlag, hk, Option.or]
    · simp [getFlag, hk, ih]

/-- Lookup in the overwritten copy of the base map. -/
theorem getFlag_overwrite (b u : List (String × Bool)) (k : String) :
    getFlag (b.map (fun p => match getFlag u p.1 with
      | some v => (p.1, v)
      | none => p)) k =
      (getFlag b k).map (fun w => (getFlag u k).getD w) := by
  induction b with
  | nil => simp [getFlag]
  | cons p rest ih =>
    by_cases hk : p.1 = k
    · subst hk
      cases hu : getFlag u p.1 <;> simp [getFlag, hu]
    · cases hu : getFlag u p.1 <;> simp [getFlag, hu, hk, ih]

/-- Lookup of a key absent from the base map passes through the filter of
newly added keys. -/
theorem getFlag_filter_new (b u : List (String × Bool)) (k : String)
    (hb : getFlag b k = none) :
    getFlag (u.filter (fun p => (getFlag b p.1).isNone)) k = getFlag u k := by
  induction u with
  | nil => simp
  | cons p rest ih =>
    by_cases hk : p.1 = k
    · subst hk
      simp [List.filter, hb, getFlag]
    · cases hp : (getFlag b p.1).isNone <;> simp [List.filter, hp, getFlag, hk, ih]

/-- The content of `Object.assign(base, upd)`: the update's value wins when it
has the key, otherwise the base's value survives. -/
theorem getFlag_objectAssign (b u : List (String × Bool)) (k : String) :
    getFlag (objectAssign b u) k = Option.or (getFlag u k) (getFlag b k) := by
  rw [objectAssign, getFlag_append, getFlag_overwrite]
  cases hb : getFlag b k with
  | none =>
    rw [getFlag_filter_new b u k hb]
    cases hu : getFlag u k <;> simp [Option.or]
  | some w =>
    cases hu : getFlag u k <;> simp [Option.or]

/-- Overwriting the document stored at an existing heap id is observable at
that id. -/
theorem heapGet_heapSet_self (hp : List (Nat × ConfigDoc)) (i : Nat)
    (d x : ConfigDoc) (hd : heapGet hp i = some d) :
    heapGet (heapSet hp i x) i = some x := by
  induction hp with
  | nil => simp [heapGet] at hd
  | cons p rest ih =>
    by_cases hi : p.1 = i
    · simp [heapSet, heapGet, hi]
    · have hd2 : heapGet rest i = some d := by
        simpa [heapGet, hi] using hd
      simpa [heapSet, heapGet, hi] using ih hd2

/-- The admin merge mutates the default document in place, and the mutation is
observable through any cache key aliased to the default document's id. -/
theorem featuresVia_adminMerge (B : BuildSt) (u : List (String × Bool))
    (k : String) (i : Nat) (d : ConfigDoc)
    (hk : cacheGet B.cache k = some i)
    (hc : cacheGet B.cache "" = some i)
    (hd : heapGet B.heap i = some d) :
    featuresVia (adminMerge B u) k = some (objectAssign d.features u) := by
  simp only [adminMerge, hc, hd]
  simp [featuresVia, docAt, hk, heapGet_heapSet_self B.heap i d _ hd]

/-- On the success path (valid key, matching admin key, object body), the
features route merges into the default document and returns the merged map. -/
theorem postFeatures_merge (validKeys : List (Option String))
    (x a q header secret : Option String) (s : String)
    (u : List (String × Bool)) (B : BuildSt) (i : Nat) (d : ConfigDoc)
    (hk : validateApiKeyF validKeys x a q = .valid s)
    (hsec : header = secret)
    (hc : cacheGet B.cache "" = some i) (hd : heapGet B.heap i = some d) :
    postFeaturesHandler validKeys x a q header secret (some u) B =
      (.okFeatures (objectAssign d.features u), adminMerge B u) := by
  simp [postFeaturesHandler, hk, hsec, docAt, hc, hd]

/-- C5: the admin feature-flag merge is a shallow, last-write-wins merge over
the default document's features map: merging `ka := true` then `kb := false`
(distinct keys) leaves both visible; re-merging the same key keeps the later
value; keys absent from the update are untouched; and the route returns the
full merged mapping. -/
theorem c5_shallow_merge (f0 u : List (String × Bool)) (ka kb k : String)
    (validKeys : List (Option String)) (x a q header secret : Option String)
    (s : String) (B : BuildSt) (i : Nat) (d : ConfigDoc)
    (hab : ka ≠ kb) (hu : getFlag u k = none)
    (hk : validateApiKeyF validKeys x a q = .valid s)
    (hsec : header = secret)
    (hc : cacheGet B.cache "" = some i) (hd : heapGet B.heap i = some d) :
    getFlag (objectAssign (objectAssign f0 [(ka, true)]) [(kb, false)]) ka = some true ∧
    getFlag (objectAssign (objectAssign f0 [(ka, true)]) [(kb, false)]) kb = some false ∧
    getFlag (objectAssign (objectAssign f0 [(ka, true)]) [(ka, false)]) ka = some false ∧
    getFlag (objectAssign f0 u) k = getFlag f0 k ∧
    (postFeaturesHandler validKeys x a q header secret (some u) B).1 =
      .okFeatures (objectAssign d.features u) := by
  have hba : (kb = ka) = False := eq_false (fun h => hab h.symm)
  refine ⟨?_, ?_, ?_, ?_, ?_⟩
  · rw [getFlag_objectAssign, getFlag_objectAssign]
    simp [getFlag, hba, Option.or]
  · rw [getFlag_objectAssign]
    simp [getFlag, Option.or]
  · rw [getFlag_objectAssign]
    simp [getFlag, Option.or]
  · rw [getFlag_objectAssign, hu]
    cases hf : getFlag f0 k <;> simp [Option.or]
  · rw [postFeatures_merge validKeys x a q header secret s u B i d hk hsec hc hd]

/-- C5 witness: concrete merge over the legacy default deployment. -/
theorem c5_shallow_merge_witness :
    ("a" : String) ≠ "b" ∧
    getFlag [("b", false)] "darkMode" = none ∧
    validateApiKeyF [some "k"] (some "k") none none = .valid "k" ∧
    cacheGet (buildCache envAbsent parseAbsent).cache "" = some 0 ∧
    heapGet (buildCache envAbsent parseAbsent).heap 0 = some (getLegacyConfig envAbsent) ∧
    (getFlag (objectAssign (objectAssign [("darkMode", false)] [("a", true)]) [("b", false)]) "a"
      = some true ∧
     getFlag (objectAssign (objectAssign [("darkMode", false)] [("a", true)]) [("b", false)]) "b"
      = some false ∧
     getFlag (objectAssign (objectAssign [("darkMode", false)] [("a", true)]) [("a", false)]) "a"
      = some false ∧
     getFlag (objectAssign [("darkMode", false)] [("b", false)]) "darkMode"
      = getFlag [("darkMode", false)] "darkMode" ∧
     (postFeaturesHandler [some "k"] (some "k") none none none none (some [("b", false)])
        (buildCache envAbsent parseAbsent)).1 =
      .okFeatures (objectAssign (getLegacyConfig envAbsent).features [("b", false)])) :=
  ⟨by decide, by decide, by decide, by decide, by decide,
   c5_shallow_merge [("darkMode", false)] [("b", false)] "a" "b" "darkMode"
     [some "k"] (some "k") none none none none "k"
     (buildCache envAbsent parseAbsent) 0 (getLegacyConfig envAbsent)
     (by decide) (by decide) (by decide) rfl (by decide) (by decide)⟩

/-! ## API-key and admin-key claims C7, C6, C10 -/

/-- C7: on every authenticated route, a request with no API key in the
dedicated header, bearer authorization header, or query parameter is rejected
with the "key required" 401 body; a present key outside the configured set is
rejected with the "invalid key" 401 body; the two rejections share status code
and error label and differ only in message text. -/
theorem c7_api_key_errors (validKeys : List (Option String))
    (x a q : Option String) (s : String) :
    (jsTruthy (extractApiKey x a q) = false →
      validateApiKeyF validKeys x a q = .keyRequired) ∧
    (extractApiKey x a q = some s → s ≠ "" → validKeys.contains (some s) = false →
      validateApiKeyF validKeys x a q = .invalidKey) ∧
    apiKeyResponse .keyRequired = some (.unauthorized keyRequiredMsg) ∧
    apiKeyResponse .invalidKey = some (.unauthorized invalidKeyMsg) ∧
    statusOf (.unauthorized keyRequiredMsg) = 401 ∧
    statusOf (.unauthorized invalidKeyMsg) = 401 ∧
    errLabel (.unauthorized keyRequiredMsg) = errLabel (.unauthorized invalidKeyMsg) ∧
    keyRequiredMsg ≠ invalidKeyMsg := by
  refine ⟨?_, ?_, rfl, rfl, rfl, rfl, rfl, by decide⟩
  · intro h
    unfold validateApiKeyF
    cases he : extractApiKey x a q with
    | none => rfl
    | some t =>
      rw [he] at h
      simp only [jsTruthy, Bool.not_eq_false', beq_iff_eq] at h
      simp [h]
  · intro he hs hcontains
    unfold validateApiKeyF
    rw [he]
    have hmem : some s ∉ validKeys := by simpa using hcontains
    simp [hs, hmem]

/-- C7 witness: with one configured key, an absent key yields "key required"
and a wrong key yields "invalid key". -/
theorem c7_api_key_errors_witness :
    validateApiKeyF [some "k1"] none none none = .keyRequired ∧
    validateApiKeyF [some "k1"] (some "zz") none none = .invalidKey :=
  ⟨(c7_api_key_errors [some "k1"] none none none "").1 (by decide),
   ((c7_api_key_errors [some "k1"] (some "zz") none none "zz").2).1
     (by decide) (by decide) (by decide)⟩

/-- C6: a features-route request whose API key validated but whose admin-key
header does not strictly equal the configured admin secret (including an
absent header against a configured secret) is rejected 403 Forbidden — never
401 — with an error label distinct from the unauthorized one. -/
theorem c6_admin_forbidden (validKeys : List (Option String))
    (x a q header secret : Option String)
    (body : Option (List (String × Bool))) (B : BuildSt) (s : String)
    (hk : validateApiKeyF validKeys x a q = .valid s)
    (hne : header ≠ secret) :
    (postFeaturesHandler validKeys x a q header secret body B).1 =
      .forbidden "Admin access required" ∧
    statusOf (postFeaturesHandler validKeys x a q header secret body B).1 = 403 ∧
    errLabel (postFeaturesHandler validKeys x a q header secret body B).1 = "Forbidden" ∧
    (403 : Nat) ≠ 401 ∧
    ("Forbidden" : String) ≠ "Unauthorized" := by
  have hres : (postFeaturesHandler validKeys x a q header secret body B).1 =
      .forbidden "Admin access required" := by
    simp [postFeaturesHandler, hk, hne]
  exact ⟨hres, by rw [hres]; rfl, by rw [hres]; rfl, by decide, by decide⟩

/-- C6 witness: valid platform key, absent admin header, configured secret. -/
theorem c6_admin_forbidden_witness :
    validateApiKeyF [some "k"] (some "k") none none = .valid "k" ∧
    (none : Option String) ≠ some "adm" ∧
    (postFeaturesHandler [some "k"] (some "k") none none none (some "adm") none
      ⟨0, [], []⟩).1 = .forbidden "Admin access required" :=
  ⟨by decide, by decide,
   (c6_admin_forbidden [some "k"] (some "k") none none none (some "adm") none
     ⟨0, [], []⟩ "k" (by decide) (by decide)).1⟩

/-- C10: the forbidden branch of the features route is skipped exactly when
the admin-key header strictly equals the configured secret — including when
both are absent (unset secret, missing header): then the merge proceeds and
the route answers 200 with the merged flags, not 403. -/
theorem c10_unset_admin_secret (validKeys : List (Option String))
    (x a q header secret : Option String) (s : String)
    (u : List (String × Bool)) (B : BuildSt) (i : Nat) (d : ConfigDoc)
    (hk : validateApiKeyF validKeys x a q = .valid s)
    (hc : cacheGet B.cache "" = some i) (hd : heapGet B.heap i = some d) :
    (header = secret →
      (postFeaturesHandler validKeys x a q header secret (some u) B).1 =
        .okFeatures (objectAssign d.features u) ∧
      statusOf (postFeaturesHandler validKeys x a q header secret (some u) B).1 = 200 ∧
      featuresVia (postFeaturesHandler validKeys x a q header secret (some u) B).2 "" =
        some (objectAssign d.features u)) ∧
    (header ≠ secret →
      (postFeaturesHandler validKeys x a q header secret (some u) B).1 =
        .forbidden "Admin access required" ∧
      statusOf (postFeaturesHandler validKeys x a q header secret (some u) B).1 = 403) := by
  constructor
  · intro hsec
    have hmerge := postFeatures_merge validKeys x a q header secret s u B i d hk hsec hc hd
    rw [hmerge]
    exact ⟨rfl, rfl, featuresVia_adminMerge B u "" i d hc hc hd⟩
  · intro hne
    have hres : (postFeaturesHandler validKeys x a q header secret (some u) B).1 =
        .forbidden "Admin access required" := by
      simp [postFeaturesHandler, hk, hne]
    exact ⟨hres, by rw [hres]; rfl⟩

/-- C10 witness: unset admin secret and missing admin header let the merge
through with a 200 on the legacy default deployment. -/
theorem c10_unset_admin_secret_witness :
    validateApiKeyF [some "k"] (some "k") none none = .valid "k" ∧
    cacheGet (buildCache envAbsent parseAbsent).cache "" = some 0 ∧
    heapGet (buildCache envAbsent parseAbsent).heap 0 = some (getLegacyConfig envAbsent) ∧
    ((postFeaturesHandler [some "k"] (some "k") none none none none
        (some [("newCheckout", true)]) (buildCache envAbsent parseAbsent)).1 =
      .okFeatures (objectAssign (getLegacyConfig envAbsent).features [("newCheckout", true)]) ∧
     statusOf (postFeaturesHandler [some "k"] (some "k") none none none none
        (some [("newCheckout", true)]) (buildCache envAbsent parseAbsent)).1 = 200 ∧
     featuresVia (postFeaturesHandler [some "k"] (some "k") none none none none
        (some [("newCheckout", true)]) (buildCache envAbsent parseAbsent)).2 "" =
      some (objectAssign (getLegacyConfig envAbsent).features [("newCheckout", true)])) :=
  ⟨by decide, by decide, by decide,
   (c10_unset_admin_secret [some "k"] (some "k") none none none none "k"
     [("newCheckout", true)] (buildCache envAbsent parseAbsent) 0
     (getLegacyConfig envAbsent) (by decide) (by decide) (by decide)).1 rfl⟩

/-! ## Startup-cache lemmas -/

/-- The empty startup state is well-formed. -/
theorem StInv_init : StInv ⟨0, [], []⟩ := by
  constructor
  · intro p hp
    simp at hp
  · intro k i h
    simp [cacheGet] at h

/-- Pushing an already-allocated, resolvable id onto the cache preserves
well-formedness. -/
theorem StInv_push (st : BuildSt) (h : StInv st) (key : String) (i : Nat)
    (hi : i < st.nextId) (hs : (heapGet st.heap i).isSome = true) :
    StInv { st with cache := (key, i) :: st.cache } := by
  constructor
  · intro q hq
    exact h.1 q hq
  · intro k j hk
    simp only [cacheGet] at hk
    by_cases hkey : key = k
    · rw [if_pos hkey] at hk
      cases hk
      exact ⟨hi, hs⟩
    · rw [if_neg hkey] at hk
      exact h.2 k j hk

/-- Allocating a fresh document satisfies the call postcondition. -/
theorem gaciOk_alloc (st : BuildSt) (h : StInv st) (d : ConfigDoc) :
    GaciOk st (alloc d st) := by
  refine ⟨rfl, Nat.le_succ _, Nat.lt_succ_self _, ⟨?_, ?_⟩, ?_⟩
  · intro p hp
    simp only [alloc, List.mem_cons] at hp
    rcases hp with rfl | hp
    · exact Nat.lt_succ_self _
    · exact Nat.lt_succ_of_lt (h.1 p hp)
  · intro k i hk
    obtain ⟨hi, hsome⟩ := h.2 k i hk
    refine ⟨Nat.lt_succ_of_lt hi, ?_⟩
    have hne : st.nextId ≠ i := by omega
    simp [alloc, heapGet, hne, hsome]
  · simp [alloc, heapGet]

/-- Returning a cache hit satisfies the call postcondition. -/
theorem gaciOk_hit (st : BuildSt) (h : StInv st) (key : String) (i : Nat)
    (hi : cacheGet st.cache key = some i) : GaciOk st (i, st) := by
  obtain ⟨hlt, hsome⟩ := h.2 key i hi
  exact ⟨rfl, le_refl _, hlt, h, hsome⟩

/-- The fallback chain satisfies the call postcondition. -/
theorem configFallback_ok (env : String → Option String) (v e : String)
    (st : BuildSt) (h : StInv st) : GaciOk st (configFallback env v e st) := by
  unfold configFallback
  split
  · split
    next i hi => exact gaciOk_hit st h "" i hi
    next => exact gaciOk_alloc st h _
  · split
    · split
      next i hi => exact gaciOk_hit st h v i hi
      next =>
        split
        next i hi => exact gaciOk_hit st h "" i hi
        next => exact gaciOk_alloc st h _
    · split
      · split
        next i hi => exact gaciOk_hit st h "" i hi
        next => exact gaciOk_alloc st h _
      · exact gaciOk_alloc st h _

/-- Every `getAppConfig` startup call satisfies the call postcondition. -/
theorem gaci_ok (env : String → Option String) (parse : String → Option ConfigDoc)
    (v e : String) (st : BuildSt) (h : StInv st) :
    GaciOk st (getAppConfigInit env parse v e st) := by
  unfold getAppConfigInit
  split
  · split
    · split
      next => exact gaciOk_alloc st h _
      next => exact configFallback_ok env v e st h
    · exact configFallback_ok env v e st h
  · exact configFallback_ok env v e st h

/-- When the structured input is present and parses, the call allocates a
fresh object whose id is the current counter. -/
theorem gaci_present (env : String → Option String) (parse : String → Option ConfigDoc)
    (v e : String) (st : BuildSt)
    (hp : sourcePresent env parse v e = true) :
    (getAppConfigInit env parse v e st).1 = st.nextId := by
  unfold getAppConfigInit
  cases henv : env (envName v e) with
  | none =>
    exfalso
    have hf : sourcePresent env parse v e = false := by
      simp [sourcePresent, henv]
    rw [hf] at hp
    cases hp
  | some s =>
    have hs : s ≠ "" := by
      intro hse
      have hf : sourcePresent env parse v e = false := by
        simp [sourcePresent, henv, hse]
      rw [hf] at hp
      cases hp
    obtain ⟨d, hd⟩ : ∃ d, parse s = some d := by
      cases hps : parse s with
      | some d => exact ⟨d, rfl⟩
      | none =>
        exfalso
        have hf : sourcePresent env parse v e = false := by
          simp [sourcePresent, henv, hps]
        rw [hf] at hp
        cases hp
    simp [hs, hd, alloc]

/-- When the structured input is absent, empty or unparseable, the call is the
fallback chain. -/
theorem gaci_eq_fallback (env : String → Option String) (parse : String → Option ConfigDoc)
    (v e : String) (st : BuildSt)
    (hp : sourcePresent env parse v e = false) :
    getAppConfigInit env parse v e st = configFallback env v e st := by
  unfold getAppConfigInit
  cases henv : env (envName v e) with
  | none => rfl
  | some s =>
    by_cases hs : s = ""
    · simp [hs]
    · cases hps : parse s with
      | none => simp [hs, hps]
      | some d =>
        exfalso
        have ht : sourcePresent env parse v e = true := by
          simp [sourcePresent, henv, hs, hps]
        rw [ht] at hp
        cases hp

/-- Fallback for a nonempty environment and nonempty version: the cached
entry for the version itself. -/
theorem configFallback_env_version (env : String → Option String) (v e : String)
    (st : BuildSt) (he : e ≠ "") (hv : v ≠ "") (j : Nat)
    (hc : cacheGet st.cache v = some j) :
    configFallback env v e st = (j, st) := by
  simp [configFallback, he, hv, hc]

/-- Fallback for a nonempty environment and empty version: the cached default
entry. -/
theorem configFallback_env_root (env : String → Option String) (e : String)
    (st : BuildSt) (he : e ≠ "") (j : Nat)
    (hc : cacheGet st.cache "" = some j) :
    configFallback env "" e st = (j, st) := by
  simp [configFallback, he, hc]

/-- Fallback for a nonempty version and empty environment: the cached default
entry. -/
theorem configFallback_plain (env : String → Option String) (v : String)
    (st : BuildSt) (hv : v ≠ "") (j : Nat)
    (hc : cacheGet st.cache "" = some j) :
    configFallback env v "" st = (j, st) := by
  simp [configFallback, hv, hc]


/-- A version string never equals itself with the `_test` suffix appended. -/
theorem append_test_ne (v : String) : v ++ "_test" ≠ v := by
  intro h
  have hlen := congrArg String.length h
  rw [String.length_append] at hlen
  have h5 : ("_test" : String).length = 5 := rfl
  omega

/-- Appending the `_test` suffix is injective. -/
theorem append_test_inj (a b : String) (h : a ++ "_test" = b ++ "_test") : a = b := by
  have hdata := congrArg String.data h
  rw [String.data_append, String.data_append] at hdata
  exact String.ext (List.append_cancel_right hdata)

/-- The fallback chain never modifies the cache. -/
theorem configFallback_cache (env : String → Option String) (v e : String)
    (st : BuildSt) : (configFallback env v e st).2.cache = st.cache := by
  unfold configFallback
  repeat' split
  all_goals rfl

/-- A `getAppConfig` startup call never modifies the cache. -/
theorem gaci_cache (env : String → Option String) (parse : String → Option ConfigDoc)
    (v e : String) (st : BuildSt) :
    (getAppConfigInit env parse v e st).2.cache = st.cache := by
  unfold getAppConfigInit
  repeat' split
  all_goals first | rfl | exact configFallback_cache env v e st

/-- The cache shape after one startup iteration: the test entry on top of the
plain entry on top of the previous cache. -/
theorem processVersion_cache (env : String → Option String)
    (parse : String → Option ConfigDoc) (st : BuildSt) (v : String) :
    ∃ pid tid,
      (processVersion env parse st v).cache =
        (v ++ "_test", tid) :: (v, pid) :: st.cache := by
  refine ⟨(getAppConfigInit env parse v "" st).1,
    (getAppConfigInit env parse v "test"
      { (getAppConfigInit env parse v "" st).2 with
        cache := (v, (getAppConfigInit env parse v "" st).1) ::
          (getAppConfigInit env parse v "" st).2.cache }).1, ?_⟩
  simp [processVersion, gaci_cache]

/-- A startup iteration for one version leaves all other keys' cache lookups
unchanged. -/
theorem processVersion_cacheGet_other (env : String → Option String)
    (parse : String → Option ConfigDoc) (st : BuildSt) (v k : String)
    (hkv : k ≠ v) (hkt : k ≠ v ++ "_test") :
    cacheGet (processVersion env parse st v).cache k = cacheGet st.cache k := by
  obtain ⟨pid, tid, hc⟩ := processVersion_cache env parse st v
  rw [hc]
  simp [cacheGet, Ne.symm hkv, Ne.symm hkt]

/-- Unfolding one iteration of the startup loop. -/
theorem stepsAfter_cons (env : String → Option String) (parse : String → Option ConfigDoc)
    (st : BuildSt) (w : String) (ws : List String) :
    stepsAfter env parse st (w :: ws) =
      stepsAfter env parse (processVersion env parse st w) ws := rfl

/-- Startup iterations leave unrelated keys' cache lookups unchanged. -/
theorem stepsAfter_cacheGet_other (env : String → Option String)
    (parse : String → Option ConfigDoc) (vs : List String) (st : BuildSt) (k : String)
    (h : ∀ w ∈ vs, k ≠ w ∧ k ≠ w ++ "_test") :
    cacheGet (stepsAfter env parse st vs).cache k = cacheGet st.cache k := by
  induction vs generalizing st with
  | nil => rfl
  | cons w ws ih =>
    rw [stepsAfter_cons,
        ih (processVersion env parse st w) (fun x hx => h x (List.mem_cons_of_mem w hx))]
    exact processVersion_cacheGet_other env parse st w k
      (h w (List.mem_cons_self w ws)).1 (h w (List.mem_cons_self w ws)).2

/-- Full specification of one startup iteration: the two new cache entries,
preservation of well-formedness, and the aliasing facts — the test entry is a
fresh object exactly when its structured input is present and parses,
otherwise it aliases the plain entry; a plain entry whose structured input is
absent aliases the cached default entry. -/
theorem processVersion_spec (env : String → Option String) (parse : String → Option ConfigDoc)
    (v : String) (st : BuildSt) (h : StInv st) :
    ∃ pid tid,
      (processVersion env parse st v).cache = (v ++ "_test", tid) :: (v, pid) :: st.cache ∧
      StInv (processVersion env parse st v) ∧
      (sourcePresent env parse v "test" = true → tid ≠ pid) ∧
      (sourcePresent env parse v "test" = false → tid = pid) ∧
      (v ≠ "" → sourcePresent env parse v "" = false →
        ∀ j, cacheGet st.cache "" = some j → pid = j) := by
  obtain ⟨hc1, hle1, hlt1, hInv1, hs1⟩ := gaci_ok env parse v "" st h
  set r1 := getAppConfigInit env parse v "" st with hr1
  set st2 : BuildSt := { r1.2 with cache := (v, r1.1) :: r1.2.cache } with hst2
  set r2 := getAppConfigInit env parse v "test" st2 with hr2
  have hInv2 : StInv st2 := StInv_push r1.2 hInv1 v r1.1 hlt1 hs1
  obtain ⟨hc2, hle2, hlt2, hInv2b, hs2⟩ := gaci_ok env parse v "test" st2 hInv2
  have hpv : processVersion env parse st v =
      { r2.2 with cache := (v ++ "_test", r2.1) :: r2.2.cache } := rfl
  refine ⟨r1.1, r2.1, ?_, ?_, ?_, ?_, ?_⟩
  · rw [hpv]
    show (v ++ "_test", r2.1) :: r2.2.cache = _
    rw [hc2]
    show (v ++ "_test", r2.1) :: (v, r1.1) :: r1.2.cache = _
    rw [hc1]
  · rw [hpv]
    exact StInv_push r2.2 hInv2b (v ++ "_test") r2.1 hlt2 hs2
  · intro hp
    have htid : r2.1 = st2.nextId := gaci_present env parse v "test" st2 hp
    have hst2n : st2.nextId = r1.2.nextId := rfl
    intro heq
    rw [heq, hst2n] at htid
    omega
  · intro hp
    have hfb := gaci_eq_fallback env parse v "test" st2 hp
    by_cases hv : v = ""
    · subst hv
      have hhit : cacheGet st2.cache "" = some r1.1 := by
        show cacheGet (("", r1.1) :: r1.2.cache) "" = some r1.1
        simp [cacheGet]
      have hcf := configFallback_env_root env "test" st2 (by decide) r1.1 hhit
      rw [hcf] at hfb
      rw [hr2, hfb]
    · have hhit : cacheGet st2.cache v = some r1.1 := by
        show cacheGet ((v, r1.1) :: r1.2.cache) v = some r1.1
        simp [cacheGet]
      have hcf := configFallback_env_version env v "test" st2 (by decide) hv r1.1 hhit
      rw [hcf] at hfb
      rw [hr2, hfb]
  · intro hv hsp j hj
    have hfb := gaci_eq_fallback env parse v "" st hsp
    have hcf := configFallback_plain env v st hv j hj
    rw [hcf] at hfb
    rw [hr1, hfb]

/-- Startup iterations preserve well-formedness. -/
theorem stepsAfter_inv (env : String → Option String) (parse : String → Option ConfigDoc)
    (vs : List String) (st : BuildSt) (h : StInv st) :
    StInv (stepsAfter env parse st vs) := by
  induction vs generalizing st with
  | nil => exact h
  | cons w ws ih =>
    rw [stepsAfter_cons]
    obtain ⟨pid, tid, _, hInv, _⟩ := processVersion_spec env parse w st h
    exact ih _ hInv

/-- Decomposing the startup loop around a chosen version of the declared list. -/
theorem build_split (env : String → Option String) (parse : String → Option ConfigDoc)
    (vs1 vs2 : List String) (v : String)
    (hsplit : CACHE_VERSIONS = vs1 ++ v :: vs2) :
    buildCache env parse =
      stepsAfter env parse
        (processVersion env parse (stepsAfter env parse ⟨0, [], []⟩ vs1) v) vs2 := by
  rw [buildCache, hsplit]
  simp [stepsAfter, List.foldl_append]

/-- The final cache entries of a declared version and of its test variant,
with the aliasing facts carried to the end of startup. -/
theorem build_version_ids (env : String → Option String) (parse : String → Option ConfigDoc)
    (vs1 vs2 : List String) (v : String)
    (hsplit : CACHE_VERSIONS = vs1 ++ v :: vs2)
    (hdist : ∀ w ∈ vs2, (v ≠ w ∧ v ≠ w ++ "_test") ∧
                        (v ++ "_test" ≠ w ∧ v ++ "_test" ≠ w ++ "_test")) :
    ∃ pid tid,
      cacheGet (buildCache env parse).cache v = some pid ∧
      cacheGet (buildCache env parse).cache (v ++ "_test") = some tid ∧
      (sourcePresent env parse v "test" = true → tid ≠ pid) ∧
      (sourcePresent env parse v "test" = false → tid = pid) ∧
      (v ≠ "" → sourcePresent env parse v "" = false →
        ∀ j, cacheGet (stepsAfter env parse ⟨0, [], []⟩ vs1).cache "" = some j → pid = j) := by
  have hIv : StInv (stepsAfter env parse ⟨0, [], []⟩ vs1) :=
    stepsAfter_inv env parse vs1 _ StInv_init
  obtain ⟨pid, tid, hcache, hInvf, hne, heq, hplain⟩ :=
    processVersion_spec env parse v (stepsAfter env parse ⟨0, [], []⟩ vs1) hIv
  refine ⟨pid, tid, ?_, ?_, hne, heq, hplain⟩
  · rw [build_split env parse vs1 vs2 v hsplit,
        stepsAfter_cacheGet_other env parse vs2 _ v (fun w hw => (hdist w hw).1),
        hcache]
    have hvt : (v ++ "_test" = v) = False := eq_false (append_test_ne v)
    simp [cacheGet, hvt]
  · rw [build_split env parse vs1 vs2 v hsplit,
        stepsAfter_cacheGet_other env parse vs2 _ (v ++ "_test") (fun w hw => (hdist w hw).2),
        hcache]
    simp [cacheGet]

/-- The unversioned default entry exists as soon as the first startup
iteration has run, and survives the later iterations. -/
theorem build_root_id (env : String → Option String) (parse : String → Option ConfigDoc)
    (vs1r : List String)
    (hr : ∀ w ∈ vs1r, ("" : String) ≠ w ∧ ("" : String) ≠ w ++ "_test") :
    ∃ j, cacheGet (stepsAfter env parse ⟨0, [], []⟩ ("" :: vs1r)).cache "" = some j := by
  rw [stepsAfter_cons, stepsAfter_cacheGet_other env parse vs1r _ "" hr]
  obtain ⟨pid, tid, hc⟩ := processVersion_cache env parse ⟨0, [], []⟩ ""
  rw [hc]
  refine ⟨pid, ?_⟩
  have he : ("" : String) ++ "_test" = "_test" := rfl
  rw [he]
  have hne : (("_test" : String) = "") = False := by decide
  simp [cacheGet, hne]

/-! ## Claims C1, C2, C8, C9 -/

/-- C1 counterexample: under a deployment with no structured inputs, the
versioned route `GET /api/v7/config` (version "7", outside the pre-declared
set) returns a 500 server error — not the unversioned default document, which
does exist in the cache. -/
theorem c1_counterexample :
    vConfigHandler (buildCache envAbsent parseAbsent) "7" = Response.serverError ∧
    isOkDoc (vConfigHandler (buildCache envAbsent parseAbsent) "7") = false ∧
    statusOf (vConfigHandler (buildCache envAbsent parseAbsent) "7") = 500 ∧
    docAt (buildCache envAbsent parseAbsent) "" = some (getLegacyConfig envAbsent) := by
  refine ⟨by decide, by decide, by decide, by decide⟩

/-- C1 (amended): for every version string that is not one of the ten startup
cache keys (neither a declared version nor a declared version with the
`_test` suffix), both versioned routes find no cache entry; building the
response then throws (`Buffer.from(JSON.stringify(undefined))`) and the
handler answers 500 Internal Server Error — it does not degrade to the
unversioned default. -/
theorem c1_amended_undeclared_version_500 (env : String → Option String)
    (parse : String → Option ConfigDoc) (version environment : String)
    (h1 : version ∉ CACHE_VERSIONS)
    (h2 : ∀ w ∈ CACHE_VERSIONS, version ≠ w ++ "_test") :
    vConfigHandler (buildCache env parse) version = Response.serverError ∧
    vConfigEnvHandler (buildCache env parse) version environment = Response.serverError ∧
    statusOf Response.serverError = 500 := by
  have hna : ∀ w ∈ CACHE_VERSIONS, version ≠ w ∧ version ≠ w ++ "_test" :=
    fun w hw => ⟨fun he => h1 (he ▸ hw), h2 w hw⟩
  have hnt : ∀ w ∈ CACHE_VERSIONS, version ++ "_test" ≠ w ∧
      version ++ "_test" ≠ w ++ "_test" := by
    intro w hw
    constructor
    · intro he
      have hlen : version.length + ("_test" : String).length = w.length := by
        rw [← String.length_append, he]
      have h5 : ("_test" : String).length = 5 := rfl
      have hwlen : w.length ≤ 1 := by
        fin_cases hw <;> decide
      omega
    · intro he
      exact (hna w hw).1 (append_test_inj version w he)
  have hplain : cacheGet (buildCache env parse).cache version = none := by
    rw [buildCache, stepsAfter_cacheGet_other env parse CACHE_VERSIONS _ version hna]
    rfl
  have htest : cacheGet (buildCache env parse).cache (version ++ "_test") = none := by
    rw [buildCache,
        stepsAfter_cacheGet_other env parse CACHE_VERSIONS _ (version ++ "_test") hnt]
    rfl
  refine ⟨?_, ?_, rfl⟩
  · simp [vConfigHandler, docAt, hplain]
  · by_cases he : environment = "test" <;>
      simp [vConfigEnvHandler, docAt, he, hplain, htest]

/-- C1 witness: version "7" (an undeclared version) gets 500 from both
versioned routes under the legacy deployment. -/
theorem c1_amended_undeclared_version_500_witness :
    (("7" : String) ∉ CACHE_VERSIONS) ∧
    (∀ w ∈ CACHE_VERSIONS, ("7" : String) ≠ w ++ "_test") ∧
    (vConfigHandler (buildCache envAbsent parseAbsent) "7" = Response.serverError ∧
     vConfigEnvHandler (buildCache envAbsent parseAbsent) "7" "test" = Response.serverError ∧
     statusOf Response.serverError = 500) :=
  ⟨by decide, by decide,
   c1_amended_undeclared_version_500 envAbsent parseAbsent "7" "test"
     (by decide) (by decide)⟩

/-- C2: the route table dispatches `GET /api/config/version` to the earlier
registered `/config/:environment` route (with `environment = "version"`),
which answers 200 with the full configuration document — the dedicated
`/config/version` handler (which would answer the three-field
`{version, timestamp, checksum}` body) is unreachable. -/
theorem c2_version_route_shadowed :
    dispatch Meth.get ["config", "version"] =
      some (RouteId.rConfigEnv, [("environment", "version")]) ∧
    serveGet (buildCache envAbsent parseAbsent) ["config", "version"] =
      Response.okDoc (getLegacyConfig envAbsent) "version" ∧
    isVersionInfo (serveGet (buildCache envAbsent parseAbsent) ["config", "version"]) = false ∧
    configVersionHandler (buildCache envAbsent parseAbsent) =
      Response.okVersionInfo (getLegacyConfig envAbsent).version := by
  refine ⟨by decide, by decide, by decide, by decide⟩

/-- C8 counterexample: with the unversioned structured input present and its
test variant absent, the cached test document for the declared version `""`
is the very same instance as the cached plain document, although the two
underlying structured inputs differ. -/
theorem c8_counterexample :
    cacheGet (buildCache envPlainOnly parseSample).cache "_test" =
      cacheGet (buildCache envPlainOnly parseSample).cache "" ∧
    cacheGet (buildCache envPlainOnly parseSample).cache "" = some 0 ∧
    envPlainOnly (envName "" "test") ≠ envPlainOnly (envName "" "") := by
  refine ⟨by decide, by decide, by decide⟩

/-- C8 (amended): for every declared version, the cached test document is a
distinct instance from the cached plain document exactly when the
test-suffixed structured input is present, non-empty and parseable; when it
is absent, empty or unparseable, the test cache entry aliases the plain
entry (the very same instance), regardless of whether the two sources
differ. -/
theorem c8_amended_test_alias (env : String → Option String)
    (parse : String → Option ConfigDoc) (v : String) (hv : v ∈ CACHE_VERSIONS) :
    (sourcePresent env parse v "test" = true →
      cacheGet (buildCache env parse).cache (v ++ "_test") ≠
        cacheGet (buildCache env parse).cache v) ∧
    (sourcePresent env parse v "test" = false →
      cacheGet (buildCache env parse).cache (v ++ "_test") =
        cacheGet (buildCache env parse).cache v) := by
  have hmain : ∀ vs1 vs2, CACHE_VERSIONS = vs1 ++ v :: vs2 →
      (∀ w ∈ vs2, (v ≠ w ∧ v ≠ w ++ "_test") ∧
                  (v ++ "_test" ≠ w ∧ v ++ "_test" ≠ w ++ "_test")) →
      (sourcePresent env parse v "test" = true →
        cacheGet (buildCache env parse).cache (v ++ "_test") ≠
          cacheGet (buildCache env parse).cache v) ∧
      (sourcePresent env parse v "test" = false →
        cacheGet (buildCache env parse).cache (v ++ "_test") =
          cacheGet (buildCache env parse).cache v) := by
    intro vs1 vs2 hs hd
    obtain ⟨pid, tid, hcp, hct, hne, heq, _⟩ := build_version_ids env parse vs1 vs2 v hs hd
    constructor
    · intro hp
      rw [hcp, hct]
      intro hcontra
      exact hne hp (Option.some.inj hcontra)
    · intro hp
      rw [hcp, hct, heq hp]
  have hcase : v = "" ∨ v = "2" ∨ v = "3" ∨ v = "4" ∨ v = "5" := by
    simpa [CACHE_VERSIONS] using hv
  rcases hcase with rfl | rfl | rfl | rfl | rfl
  · exact hmain [] ["2", "3", "4", "5"] rfl (by decide)
  · exact hmain [""] ["3", "4", "5"] rfl (by decide)
  · exact hmain ["", "2"] ["4", "5"] rfl (by decide)
  · exact hmain ["", "2", "3"] ["5"] rfl (by decide)
  · exact hmain ["", "2", "3", "4"] [] rfl (by decide)

/-- C8 witness: for version `""` with the plain source present and the test
source absent, the two cache entries are equal (aliased). -/
theorem c8_amended_test_alias_witness :
    (("" : String) ∈ CACHE_VERSIONS) ∧
    sourcePresent envPlainOnly parseSample "" "test" = false ∧
    cacheGet (buildCache envPlainOnly parseSample).cache ("" ++ "_test") =
      cacheGet (buildCache envPlainOnly parseSample).cache "" :=
  ⟨by decide, by decide,
   (c8_amended_test_alias envPlainOnly parseSample "" (by decide)).2 (by decide)⟩

/-- One startup iteration for a nonempty version with `""` distinct from all
pushed keys; helper for the aliased-merge claim. -/
theorem c9_case (env : String → Option String) (parse : String → Option ConfigDoc)
    (upd : List (String × Bool)) (v : String) (vs1r vs2 : List String)
    (hsplit : CACHE_VERSIONS = ("" :: vs1r) ++ v :: vs2)
    (hd2 : ∀ w ∈ vs2, (v ≠ w ∧ v ≠ w ++ "_test") ∧
                      (v ++ "_test" ≠ w ∧ v ++ "_test" ≠ w ++ "_test"))
    (hr1 : ∀ w ∈ vs1r, ("" : String) ≠ w ∧ ("" : String) ≠ w ++ "_test")
    (hrv : ("" : String) ≠ v ∧ ("" : String) ≠ v ++ "_test")
    (hr2 : ∀ w ∈ vs2, ("" : String) ≠ w ∧ ("" : String) ≠ w ++ "_test")
    (hv0 : v ≠ "")
    (hsp : sourcePresent env parse v "" = false) :
    cacheGet (buildCache env parse).cache v = cacheGet (buildCache env parse).cache "" ∧
    featuresVia (adminMerge (buildCache env parse) upd) v =
      (featuresVia (buildCache env parse) "").map (fun f => objectAssign f upd) := by
  obtain ⟨j, hj⟩ := build_root_id env parse vs1r hr1
  obtain ⟨pid, tid, hcp, hct, _, _, hplain⟩ :=
    build_version_ids env parse ("" :: vs1r) vs2 v hsplit hd2
  have hpid : pid = j := hplain hv0 hsp j hj
  have hB0 : cacheGet (buildCache env parse).cache "" = some j := by
    rw [build_split env parse ("" :: vs1r) vs2 v hsplit,
        stepsAfter_cacheGet_other env parse vs2 _ "" hr2,
        processVersion_cacheGet_other env parse _ v "" hrv.1 hrv.2]
    exact hj
  have hBv : cacheGet (buildCache env parse).cache v = some j := by
    rw [hcp, hpid]
  have hIB : StInv (buildCache env parse) := by
    rw [buildCache]
    exact stepsAfter_inv env parse CACHE_VERSIONS _ StInv_init
  obtain ⟨_, hsomeB⟩ := hIB.2 "" j hB0
  obtain ⟨d, hd⟩ := Option.isSome_iff_exists.mp hsomeB
  refine ⟨by rw [hBv, hB0], ?_⟩
  rw [featuresVia_adminMerge (buildCache env parse) upd v j d hBv hB0 hd]
  simp [featuresVia, docAt, hB0, hd]

/-- C9 (amended): for every declared version other than `""` whose plain
structured input is absent, empty or unparseable, the cache entry for that
version aliases the unversioned default's entry (the very same object), so
the admin feature-flag merge into the default document is observable through
that version's resolutions.  (The original claim fails for test variants
whose own source is absent but whose version's source is present: those alias
the version's entry, not the default — see the counterexample.) -/
theorem c9_amended_alias (env : String → Option String) (parse : String → Option ConfigDoc)
    (upd : List (String × Bool)) (v : String)
    (hv : v ∈ (["2", "3", "4", "5"] : List String))
    (hsp : sourcePresent env parse v "" = false) :
    cacheGet (buildCache env parse).cache v = cacheGet (buildCache env parse).cache "" ∧
    featuresVia (adminMerge (buildCache env parse) upd) v =
      (featuresVia (buildCache env parse) "").map (fun f => objectAssign f upd) := by
  have hcase : v = "2" ∨ v = "3" ∨ v = "4" ∨ v = "5" := by simpa using hv
  rcases hcase with rfl | rfl | rfl | rfl
  · exact c9_case env parse upd "2" [] ["3", "4", "5"] rfl (by decide) (by decide)
      (by decide) (by decide) (by decide) hsp
  · exact c9_case env parse upd "3" ["2"] ["4", "5"] rfl (by decide) (by decide)
      (by decide) (by decide) (by decide) hsp
  · exact c9_case env parse upd "4" ["2", "3"] ["5"] rfl (by decide) (by decide)
      (by decide) (by decide) (by decide) hsp
  · exact c9_case env parse upd "5" ["2", "3", "4"] [] rfl (by decide) (by decide)
      (by decide) (by decide) (by decide) hsp

/-- C9 counterexample: with only `APP_CONFIG_2` present, the test entry
`"2_test"` (absent source) aliases the version-2 entry, not the unversioned
default's entry — refuting the claim that every absent-source entry is the
same object as the default's. -/
theorem c9_counterexample :
    sourcePresent envV2Only parseSample "2" "test" = false ∧
    cacheGet (buildCache envV2Only parseSample).cache "2_test" = some 1 ∧
    cacheGet (buildCache envV2Only parseSample).cache "2" = some 1 ∧
    cacheGet (buildCache envV2Only parseSample).cache "" = some 0 ∧
    cacheGet (buildCache envV2Only parseSample).cache "2_test" ≠
      cacheGet (buildCache envV2Only parseSample).cache "" := by
  refine ⟨by decide, by decide, by decide, by decide, by decide⟩

/-- C9 witness: version "3" with no structured inputs aliases the default and
sees the admin merge. -/
theorem c9_amended_alias_witness :
    (("3" : String) ∈ (["2", "3", "4", "5"] : List String)) ∧
    sourcePresent envAbsent parseAbsent "3" "" = false ∧
    (cacheGet (buildCache envAbsent parseAbsent).cache "3" =
      cacheGet (buildCache envAbsent parseAbsent).cache "" ∧
     featuresVia (adminMerge (buildCache envAbsent parseAbsent) [("newCheckout", true)]) "3" =
      (featuresVia (buildCache envAbsent parseAbsent) "").map
        (fun f => objectAssign f [("newCheckout", true)])) :=
  ⟨by decide, by decide,
   c9_amended_alias envAbsent parseAbsent [("newCheckout", true)] "3"
     (by decide) (by decide)⟩
